import Mathlib

/-!
Shallow embedding of the mamba-graph repository scanning, scoring and
payload-budgeting engine (`src/backend/main.py`), together with theorems
settling the specification claims.

Modelling conventions:
* Python `str` is modelled as Lean `String` (a sequence of unicode scalar
  values, matching Python's code-point view; `len`, slicing and splitting
  are defined below on `String.data`).
* Python `float` arithmetic is idealised as real arithmetic; `math.log10`
  becomes `Real.logb 10`, which makes the complexity scorer (and everything
  downstream of it) `noncomputable`.  `round(x, 1)` is modelled as exact
  round-half-to-even at one decimal.
* The filesystem is an explicit finite tree (`PyDir`); `os.walk` with the
  source's in-place `dirs[:]` sorting/filtering becomes a structural
  recursion over that tree.  `os.sep` is modelled as "/".
-/

set_option maxRecDepth 8000

namespace MambaGraph

/-! ## Python string primitives -/

/-- ASCII whitespace, as stripped by Python `str.strip`/`lstrip`
(the model restricts Python's unicode whitespace to ASCII). -/
def isPySpace (c : Char) : Bool :=
  c = ' ' || c = '\t' || c = '\n' || c = '\r' || c = '\x0b' || c = '\x0c'

/-- Python `content.split(sep)` for a single-character separator:
the result always has at least one (possibly empty) piece. -/
def splitChar (sep : Char) : List Char → List (List Char)
  | [] => [[]]
  | c :: cs =>
    match splitChar sep cs with
    | [] => [[]]
    | l :: ls => if c = sep then [] :: l :: ls else (c :: l) :: ls

/-- Python `content.split("\n")`. -/
def pySplitNL (s : String) : List String := (splitChar '\n' s.data).map String.mk

/-- Python `sep.join(pieces)`. -/
def joinSep (sep : String) : List String → String
  | [] => ""
  | [x] => x
  | x :: y :: xs => x ++ sep ++ joinSep sep (y :: xs)

/-- Python `"".join(pieces)`. -/
def concatAll (l : List String) : String := l.foldl (fun a b => a ++ b) ""

/-- Python slice `s[:n]` for a nonnegative bound. -/
def pyTakeStr (n : ℕ) (s : String) : String := ⟨s.data.take n⟩

/-- Python `s.lower()` (ASCII model). -/
def pyLower (s : String) : String := ⟨s.data.map Char.toLower⟩

/-- Python `needle in hay` substring containment. -/
def pyContains (needle hay : String) : Bool :=
  hay.data.tails.any (fun t => needle.data.isPrefixOf t)

/-- Python `s.startswith(p)`. -/
def pyStartsWith (p s : String) : Bool := p.data.isPrefixOf s.data

/-- Python `s.endswith(p)`. -/
def pyEndsWith (p s : String) : Bool := p.data.isSuffixOf s.data

/-- Python `s.replace(a, b)` for single-character `a`, `b`. -/
def pyReplaceChar (a b : Char) (s : String) : String :=
  ⟨s.data.map (fun c => if c = a then b else c)⟩

/-- Index of the last occurrence of a character, if any. -/
def lastIdxOf (c : Char) : List Char → Option ℕ
  | [] => none
  | x :: xs =>
    match lastIdxOf c xs with
    | some i => some (i + 1)
    | none => if x = c then some 0 else none

/-- `pathlib.Path(name).suffix`: the extension including the dot, or `""`
when the last dot is absent, leading (dotfiles) or trailing. -/
def pySuffix (s : String) : String :=
  match lastIdxOf '.' s.data with
  | none => ""
  | some i => if 0 < i ∧ i + 1 < s.data.length then ⟨s.data.drop i⟩ else ""

/-- Python `str(n)` for a natural number. -/
def natStr (n : ℕ) : String := ⟨Nat.toDigits 10 n⟩

/-- `list(set(xs))`, modelled as first-occurrence deduplication (CPython's
set iteration order is an implementation detail; within one process it is a
fixed function of the inserted strings, so any fixed deduplication gives a
faithful deterministic model). -/
def dedupFirst (l : List String) : List String :=
  l.foldl (fun acc x => if x ∈ acc then acc else acc ++ [x]) []

/-- `len(l) - len(l.lstrip())`: the leading-whitespace width of a line. -/
def indentOf (l : String) : ℕ := (l.data.takeWhile isPySpace).length

/-- Python truthiness of `l.strip()`: the line has a non-whitespace char. -/
def hasNonSpace (l : String) : Bool := l.data.any (fun c => !(isPySpace c))

/-- Python `max(xs, default=0)` over naturals. -/
def maxD (l : List ℕ) : ℕ := l.foldr max 0

/-- Python string `<`: lexicographic comparison by code point. -/
def lexLt : List Char → List Char → Bool
  | [], [] => false
  | [], _ :: _ => true
  | _ :: _, [] => false
  | a :: as, b :: bs => if a < b then true else if b < a then false else lexLt as bs

/-- Python string `<` on `String`. -/
def strLt (a b : String) : Bool := lexLt a.data b.data

/-! ## Tables from the source (`IGNORE_PATHS`, `LANGUAGE_MAP`, ...) -/

def IGNORE_PATHS : List String :=
  ["node_modules", ".git", "__pycache__", "venv", ".venv", "env",
   "dist", "build", ".next", "target", "vendor", "coverage",
   ".vscode", ".idea", "bin", "obj", "logs", "tmp", ".cache",
   ".tox", ".mypy_cache", ".pytest_cache", "egg-info"]

/-- A language table entry: display name and color. -/
structure LangInfo where
  name : String
  color : String
deriving DecidableEq

def LANGUAGE_MAP : List (String × LangInfo) :=
  [(".py", ⟨"Python", "#3572A5"⟩),
   (".js", ⟨"JavaScript", "#f1e05a"⟩),
   (".ts", ⟨"TypeScript", "#3178c6"⟩),
   (".jsx", ⟨"React JSX", "#61dafb"⟩),
   (".tsx", ⟨"React TSX", "#3178c6"⟩),
   (".c", ⟨"C", "#555555"⟩),
   (".cpp", ⟨"C++", "#f34b7d"⟩),
   (".h", ⟨"C/C++ Header", "#555555"⟩),
   (".hpp", ⟨"C++ Header", "#f34b7d"⟩),
   (".rs", ⟨"Rust", "#dea584"⟩),
   (".go", ⟨"Go", "#00ADD8"⟩),
   (".java", ⟨"Java", "#b07219"⟩),
   (".kt", ⟨"Kotlin", "#A97BFF"⟩),
   (".swift", ⟨"Swift", "#F05138"⟩),
   (".rb", ⟨"Ruby", "#701516"⟩),
   (".php", ⟨"PHP", "#4F5D95"⟩),
   (".cs", ⟨"C#", "#178600"⟩),
   (".cu", ⟨"CUDA", "#76b900"⟩),
   (".cuh", ⟨"CUDA Header", "#76b900"⟩),
   (".sh", ⟨"Shell", "#89e051"⟩),
   (".bat", ⟨"Batch", "#C1F12E"⟩),
   (".sql", ⟨"SQL", "#e38c00"⟩),
   (".proto", ⟨"Protobuf", "#4285F4"⟩),
   (".zig", ⟨"Zig", "#ec915c"⟩),
   (".lua", ⟨"Lua", "#000080"⟩),
   (".scala", ⟨"Scala", "#c22d40"⟩),
   (".r", ⟨"R", "#198CE7"⟩),
   (".dart", ⟨"Dart", "#00B4AB"⟩),
   (".ex", ⟨"Elixir", "#6e4a7e"⟩),
   (".exs", ⟨"Elixir Script", "#6e4a7e"⟩),
   (".vue", ⟨"Vue", "#41b883"⟩),
   (".svelte", ⟨"Svelte", "#ff3e00"⟩),
   (".json", ⟨"JSON", "#292929"⟩),
   (".yaml", ⟨"YAML", "#cb171e"⟩),
   (".yml", ⟨"YAML", "#cb171e"⟩),
   (".toml", ⟨"TOML", "#9c4221"⟩),
   (".xml", ⟨"XML", "#0060ac"⟩),
   (".ini", ⟨"INI", "#d1dbe0"⟩),
   (".cfg", ⟨"Config", "#d1dbe0"⟩),
   (".env", ⟨"Env", "#ECD53F"⟩),
   (".properties", ⟨"Properties", "#2A6277"⟩),
   (".html", ⟨"HTML", "#e34c26"⟩),
   (".htm", ⟨"HTML", "#e34c26"⟩),
   (".css", ⟨"CSS", "#563d7c"⟩),
   (".scss", ⟨"SCSS", "#c6538c"⟩),
   (".sass", ⟨"Sass", "#a53b70"⟩),
   (".less", ⟨"Less", "#1d365d"⟩),
   (".md", ⟨"Markdown", "#083fa1"⟩),
   (".rst", ⟨"reStructuredText", "#141414"⟩),
   (".txt", ⟨"Text", "#888888"⟩),
   (".dockerfile", ⟨"Dockerfile", "#384d54"⟩),
   (".makefile", ⟨"Makefile", "#427819"⟩),
   (".cmake", ⟨"CMake", "#DA3434"⟩),
   (".gradle", ⟨"Gradle", "#02303A"⟩),
   (".tf", ⟨"Terraform", "#5C4EE5"⟩),
   (".hcl", ⟨"HCL", "#5C4EE5"⟩),
   (".csv", ⟨"CSV", "#237346"⟩),
   (".graphql", ⟨"GraphQL", "#e10098"⟩),
   (".prisma", ⟨"Prisma", "#2D3748"⟩)]

def SUPPORTED_EXTENSIONS : List String := LANGUAGE_MAP.map Prod.fst

def SPECIAL_FILENAMES : List (String × LangInfo) :=
  [("Dockerfile", ⟨"Dockerfile", "#384d54"⟩),
   ("Makefile", ⟨"Makefile", "#427819"⟩),
   ("Procfile", ⟨"Procfile", "#6e4a7e"⟩),
   ("Vagrantfile", ⟨"Vagrantfile", "#1563FF"⟩),
   ("Gemfile", ⟨"Gemfile", "#701516"⟩),
   ("Rakefile", ⟨"Rakefile", "#701516"⟩),
   ("Justfile", ⟨"Justfile", "#384d54"⟩),
   (".gitignore", ⟨"Gitignore", "#F05032"⟩),
   (".dockerignore", ⟨"Dockerignore", "#384d54"⟩),
   ("requirements.txt", ⟨"Requirements", "#3572A5"⟩),
   ("package.json", ⟨"Package JSON", "#f1e05a"⟩),
   ("tsconfig.json", ⟨"TS Config", "#3178c6"⟩),
   ("Cargo.toml", ⟨"Cargo Config", "#dea584"⟩),
   ("go.mod", ⟨"Go Module", "#00ADD8"⟩),
   ("go.sum", ⟨"Go Sum", "#00ADD8"⟩),
   ("pyproject.toml", ⟨"PyProject", "#3572A5"⟩),
   ("setup.py", ⟨"Setup Script", "#3572A5"⟩),
   ("setup.cfg", ⟨"Setup Config", "#3572A5"⟩),
   ("docker-compose.yml", ⟨"Docker Compose", "#384d54"⟩),
   ("docker-compose.yaml", ⟨"Docker Compose", "#384d54"⟩),
   (".env.example", ⟨"Env Example", "#ECD53F"⟩)]

/-! ## Import extraction (`IMPORT_PATTERNS`, `_extract_imports`)

The regex patterns of `IMPORT_PATTERNS` are modelled as hand-rolled matchers
over code points with the same capture semantics on well-formed inputs
(`\w` is restricted to ASCII word characters).

The second pattern for the `.js`/`.ts`/`.jsx`/`.tsx` entries,
`(?:require\s*\(\s*['\"])([\w@/.~-]+)['\"]\s*\))`, has an unbalanced closing
parenthesis, so `re.findall` raises `re.error` when it is reached; in
`scan_and_read` that exception is caught by the per-file `except` handler and
the file is skipped entirely.  The model returns `none` for those extensions
to reflect the raised exception. -/

/-- ASCII `\w` or a dot (the charset of `[\w.]`). -/
def isWordDot (c : Char) : Bool := c.isAlphanum || c = '_' || c = '.'

/-- The charset `[\w:]` of the Rust pattern. -/
def isWordColon (c : Char) : Bool := c.isAlphanum || c = '_' || c = ':'

/-- The charset `[\w/.]` of the Go and C-family patterns. -/
def isWordSlashDot (c : Char) : Bool := c.isAlphanum || c = '_' || c = '/' || c = '.'

/-- One line against `^import\s+([\w.]+)` (Python and Java). -/
def matchImportLine (l : String) : Option String :=
  let cs := l.data
  if ("import").data.isPrefixOf cs then
    let rest := cs.drop 6
    let ws := rest.takeWhile isPySpace
    if ws.length = 0 then none
    else
      let cap := (rest.drop ws.length).takeWhile isWordDot
      if cap.length = 0 then none else some ⟨cap⟩
  else none

/-- One line against `^from\s+([\w.]+)\s+import` (Python). -/
def matchFromLine (l : String) : Option String :=
  let cs := l.data
  if ("from").data.isPrefixOf cs then
    let rest := cs.drop 4
    let ws := rest.takeWhile isPySpace
    if ws.length = 0 then none
    else
      let cap := (rest.drop ws.length).takeWhile isWordDot
      if cap.length = 0 then none
      else
        let rest2 := (rest.drop ws.length).drop cap.length
        let ws2 := rest2.takeWhile isPySpace
        if ws2.length = 0 then none
        else if ("import").data.isPrefixOf (rest2.drop ws2.length) then some ⟨cap⟩
        else none
  else none

/-- One line against `^use\s+([\w:]+)` (Rust). -/
def matchUseLine (l : String) : Option String :=
  let cs := l.data
  if ("use").data.isPrefixOf cs then
    let rest := cs.drop 3
    let ws := rest.takeWhile isPySpace
    if ws.length = 0 then none
    else
      let cap := (rest.drop ws.length).takeWhile isWordColon
      if cap.length = 0 then none else some ⟨cap⟩
  else none

/-- Whole-content scan for the Go pattern `[\"']([\w./]+)[\"']`. -/
def goQuoteScan : List Char → List String
  | [] => []
  | c :: cs =>
    if c = '"' || c = '\x27' then
      let cap := cs.takeWhile isWordSlashDot
      match h : cs.drop cap.length with
      | q :: rs =>
        if (q = '"' || q = '\x27') && cap.length > 0 then ⟨cap⟩ :: goQuoteScan rs
        else goQuoteScan cs
      | [] => []
    else goQuoteScan cs
termination_by l => l.length
decreasing_by
  all_goals simp_wf
  all_goals try omega
  all_goals
    have h2 := congrArg List.length h
  all_goals
    rw [List.length_drop] at h2
  all_goals
    simp only [List.length_cons] at h2
  all_goals omega

/-- Whole-content scan for the C-family pattern `#include\s*[<\"]([\w/.]+)[>\"]`. -/
def includeScan : List Char → List String
  | [] => []
  | c :: cs =>
    if c = '#' then
      if ("include").data.isPrefixOf cs then
        let rest := cs.drop 7
        let ws := rest.takeWhile isPySpace
        match hA : rest.drop ws.length with
        | o :: r1 =>
          if o = '<' || o = '"' then
            let cap := r1.takeWhile isWordSlashDot
            match hB : r1.drop cap.length with
            | e :: r2 =>
              if (e = '>' || e = '"') && cap.length > 0 then ⟨cap⟩ :: includeScan r2
              else includeScan cs
            | [] => []
          else includeScan cs
        | [] => []
      else includeScan cs
    else includeScan cs
termination_by l => l.length
decreasing_by
  all_goals simp_wf
  all_goals try omega
  all_goals
    have hA2 := congrArg List.length hA
  all_goals
    rw [List.length_drop, List.length_drop] at hA2
  all_goals
    simp only [List.length_cons] at hA2
  all_goals try omega
  all_goals
    have hB2 := congrArg List.length hB
  all_goals
    rw [List.length_drop] at hB2
  all_goals
    simp only [List.length_cons] at hB2
  all_goals omega

/-- The per-extension `findall` results, concatenated pattern by pattern
(`IMPORT_PATTERNS`); extensions without patterns yield no matches. -/
def importMatches (ext : String) (content : String) : List String :=
  if ext = ".py" then
    (pySplitNL content).filterMap matchImportLine
      ++ (pySplitNL content).filterMap matchFromLine
  else if ext = ".go" then goQuoteScan content.data
  else if ext = ".rs" then (pySplitNL content).filterMap matchUseLine
  else if ext = ".java" then (pySplitNL content).filterMap matchImportLine
  else if ext = ".c" || ext = ".cpp" || ext = ".h" || ext = ".cu" then
    includeScan content.data
  else []

/-- `RepositoryProcessor._extract_imports`.  Returns `none` when `re.findall`
raises on the malformed `require` pattern (`.js`/`.ts`/`.jsx`/`.tsx`),
otherwise `list(set(matches))` as first-occurrence deduplication. -/
def extract_imports (content : String) (ext : String) : Option (List String) :=
  if ext = ".js" || ext = ".ts" || ext = ".jsx" || ext = ".tsx" then none
  else some (dedupFirst (importMatches ext content))

/-! ## ComplexityAnalyzer -/

namespace ComplexityAnalyzer

/-- `ComplexityAnalyzer.BRANCH_KW`. -/
def BRANCH_KW : List (String × List String) :=
  [(".py", ["if ", "elif ", "else:", "for ", "while ", "except ", "with "]),
   (".js", ["if ", "else ", "for ", "while ", "switch ", "case ", "catch "]),
   (".ts", ["if ", "else ", "for ", "while ", "switch ", "case ", "catch "]),
   (".jsx", ["if ", "else ", "for ", "while ", "switch ", "case ", "catch "]),
   (".tsx", ["if ", "else ", "for ", "while ", "switch ", "case ", "catch "]),
   (".go", ["if ", "else ", "for ", "switch ", "case ", "select "]),
   (".rs", ["if ", "else ", "for ", "while ", "match ", "loop "]),
   (".java", ["if ", "else ", "for ", "while ", "switch ", "case ", "catch "]),
   (".c", ["if ", "else ", "for ", "while ", "switch ", "case "]),
   (".cpp", ["if ", "else ", "for ", "while ", "switch ", "case ", "catch "])]

/-- `BRANCH_KW.get(ext, ["if ", "for ", "while "])`. -/
def keywordsFor (ext : String) : List String :=
  (BRANCH_KW.lookup ext).getD ["if ", "for ", "while "]

/-- Python `round(x)`: round-half-to-even on an idealised real. -/
noncomputable def roundHE (x : ℝ) : ℤ :=
  if Int.fract x = 1 / 2 then (if Even ⌊x⌋ then ⌊x⌋ else ⌊x⌋ + 1) else round x

/-- Python `round(x, 1)`. -/
noncomputable def pyRound1 (x : ℝ) : ℝ := (roundHE (10 * x) : ℝ) / 10

/-- The body of `ComplexityAnalyzer.score` after `content.split("\n")`. -/
noncomputable def scoreLines (lines : List String) (ext : String) : ℝ :=
  let total := lines.length
  if total = 0 then 0
  else
    let keywords := keywordsFor ext
    let branch_count :=
      (lines.filter (fun l => keywords.any (fun kw => pyContains kw l))).length
    let max_indent := maxD ((lines.filter hasNonSpace).map indentOf)
    let nesting : ℝ := min ((max_indent : ℝ) / 4) 10 / 10
    let density : ℝ := min ((branch_count : ℝ) / ((max total 1 : ℕ) : ℝ)) 1
    let lengthF : ℝ := min (Real.logb 10 ((max total 1 : ℕ) : ℝ) / 4) 1
    pyRound1 (min ((density * 0.4 + nesting * 0.35 + lengthF * 0.25) * 100) 100)

/-- `ComplexityAnalyzer.score`. -/
noncomputable def score (content : String) (ext : String) : ℝ :=
  scoreLines (pySplitNL content) ext

end ComplexityAnalyzer

/-- Python `repr` of the floats produced by `round(_, 1)` (always an exact
multiple of 1/10 in the idealised model, printed as `<int>.<tenth>`). -/
noncomputable def floatStr (x : ℝ) : String :=
  let k := round (10 * x)
  (if k < 0 then "-" else "") ++ natStr (k.natAbs / 10) ++ "." ++ natStr (k.natAbs % 10)

/-! ## Data model -/

/-- `FileNodeInfo` (pydantic model in the source). -/
structure FileNodeInfo where
  path : String
  relative_path : String
  size_bytes : ℕ
  line_count : ℕ
  extension : String
  language : String
  language_color : String
  last_modified : String
  imports : List String
  complexity_score : ℝ
  has_tests : Bool

/-- One dependency edge of the summary (`{source, target, type, raw}`). -/
structure DepLink where
  source : String
  target : String
  type : String
  raw : String
deriving DecidableEq

/-- One hotspot entry (`{file, complexity, lines, language}`). -/
structure Hotspot where
  file : String
  complexity : ℝ
  lines : ℕ
  language : String

/-- The scan summary dict. -/
structure Summary where
  name : String
  total_files : ℕ
  total_lines : ℕ
  total_bytes : ℕ
  languages : List (String × ℕ)
  dependency_links : List DepLink
  hotspots : List Hotspot
  most_connected : List (String × ℕ)
  avg_complexity : ℝ

/-- A file on disk: name, `st_size`, decoded text content and the
pre-formatted `st_mtime` ISO timestamp. -/
structure PyFile where
  name : String
  size : ℕ
  content : String
  mtime : String

/-- A directory tree (the filesystem under the scan root). -/
inductive PyDir where
  | mk (name : String) (files : List PyFile) (subdirs : List PyDir)

def PyDir.name : PyDir → String
  | .mk n _ _ => n

def PyDir.files : PyDir → List PyFile
  | .mk _ fs _ => fs

def PyDir.subdirs : PyDir → List PyDir
  | .mk _ _ ds => ds

/-! ## The scanner (`RepositoryProcessor.scan_and_read`, lines 388-443) -/

/-- The mutable scan state threaded through the `os.walk` loop:
`meta_list`, `code_parts`, `lang_stats` (insertion-ordered `defaultdict`),
`total_lines`, `total_bytes`. -/
structure ScanSt where
  metas : List FileNodeInfo
  parts : List String
  langStats : List (String × ℕ)
  totalLines : ℕ
  totalBytes : ℕ

def initSt : ScanSt := ⟨[], [], [], 0, 0⟩

/-- `defaultdict(int)`-style bump keeping first-insertion key order. -/
def assocBump (l : List (String × ℕ)) (k : String) (v : ℕ) : List (String × ℕ) :=
  match l with
  | [] => [(k, v)]
  | (k0, v0) :: rest =>
    if k0 = k then (k0, v0 + v) :: rest else (k0, v0) :: assocBump rest k v

/-- Python `sorted` on strings: stable ascending by code point.  Mathlib's
`insertionSort` with `r a b := ¬ b < a` places each earlier element before
later equal ones, which is exactly CPython's stable sort. -/
def sortFiles (fs : List PyFile) : List PyFile :=
  List.insertionSort (fun f g => strLt g.name f.name = false) fs

/-- One iteration of the per-file loop body (lines 399-443): returns the
`FileNodeInfo` and the raw code part, or `none` when the file is skipped
(unsupported, oversized, or the `except` handler fired — which the malformed
js-family `require` pattern always makes happen). -/
noncomputable def processFile (rootPath relAcc : String) (f : PyFile) : Option (FileNodeInfo × String) :=
  let ext := pyLower (pySuffix f.name)
  let fname := f.name
  let is_special := (SPECIAL_FILENAMES.map Prod.fst).contains fname
      || (SPECIAL_FILENAMES.map (fun p => pyLower p.1)).contains (pyLower fname)
  if !(SUPPORTED_EXTENSIONS.contains ext) && !is_special then none
  else if 200000 < f.size then none
  else
    match extract_imports f.content ext with
    | none => none
    | some imports =>
      let rel := relAcc ++ fname
      let lns := pySplitNL f.content
      let info :=
        if is_special && !(SUPPORTED_EXTENSIONS.contains ext) then
          (SPECIAL_FILENAMES.lookup fname).getD ⟨"Config", "#888"⟩
        else (LANGUAGE_MAP.lookup ext).getD ⟨"Unknown", "#888"⟩
      let cx := ComplexityAnalyzer.score f.content ext
      let show_ :=
        if lns.length ≤ 200 then f.content
        else joinSep "\n" (lns.take 120 ++ ["...(truncated)..."] ++ lns.drop (lns.length - 50))
      some (⟨rootPath ++ "/" ++ rel, rel, f.size, lns.length, ext, info.name, info.color,
             f.mtime, imports, cx, pyContains ("test") (pyLower rel)⟩,
        "\n--- FILE: " ++ rel ++ " | " ++ info.name ++ " | " ++ natStr lns.length
          ++ " lines | complexity=" ++ floatStr cx ++ " ---\n" ++ show_ ++ "\n")

/-- The `for fn in sorted(files)` loop with the `len(meta_list) >= max_files`
break (the break stops this directory's file loop; traversal continues). -/
noncomputable def scanFiles (mf : ℕ) (rootPath relAcc : String) : List PyFile → ScanSt → ScanSt
  | [], st => st
  | f :: fs, st =>
    if mf ≤ st.metas.length then st
    else
      match processFile rootPath relAcc f with
      | none => scanFiles mf rootPath relAcc fs st
      | some (fi, part) =>
        scanFiles mf rootPath relAcc fs
          { metas := st.metas ++ [fi], parts := st.parts ++ [part],
            langStats := assocBump st.langStats fi.language fi.line_count,
            totalLines := st.totalLines + fi.line_count,
            totalBytes := st.totalBytes + fi.size_bytes }

mutual

/-- `os.walk` over one directory in `scan_and_read`: process this directory's
files in sorted order, then descend into the `IGNORE_PATHS`-filtered, sorted,
optionally test-filtered subdirectories (top-down DFS). -/
noncomputable def scanDirT (mf : ℕ) (it : Bool) (rootPath : String) (d : PyDir)
    (relAcc : String) (st : ScanSt) : ScanSt :=
  match d with
  | .mk _ fs ds =>
    let st1 := scanFiles mf rootPath relAcc (sortFiles fs) st
    let children := scanSubT mf it rootPath ds
    let kept := List.insertionSort (fun a b => strLt b.1 a.1 = false)
      (children.filter (fun p => !(IGNORE_PATHS.contains p.1)))
    let kept2 :=
      if it then kept
      else kept.filter (fun p =>
        !(pyContains ("test") (pyLower p.1)) && !(pyContains ("spec") (pyLower p.1)))
    kept2.foldl (fun s p => p.2 (relAcc ++ p.1 ++ "/") s) st1

/-- The subdirectory walkers, paired with their names for sorting/filtering. -/
noncomputable def scanSubT (mf : ℕ) (it : Bool) (rootPath : String) :
    List PyDir → List (String × (String → ScanSt → ScanSt))
  | [] => []
  | d :: ds => (d.name, scanDirT mf it rootPath d) :: scanSubT mf it rootPath ds

end

/-! ## Tree renderer (`generate_tree`, lines 371-386) -/

/-- Python `s * n`. -/
def repeatStr (s : String) (n : ℕ) : String := concatAll (List.replicate n s)

mutual

/-- One `os.walk` visit in `generate_tree`: directories at `level >= depth`
are pruned (no line, no descent); recognized files are listed beneath the
directory line.  Note: no test filtering here, and the file extension is not
lower-cased (faithful to the source). -/
def renderDir (depth : ℕ) (d : PyDir) (lvl : ℕ) : List String :=
  match d with
  | .mk n fs ds =>
    if depth ≤ lvl then []
    else
      let indent := repeatStr "│   " lvl
      let sub := repeatStr "│   " (lvl + 1)
      let fileLines := (sortFiles fs).filterMap (fun f =>
        if SUPPORTED_EXTENSIONS.contains (pySuffix f.name)
            || (SPECIAL_FILENAMES.map Prod.fst).contains f.name then
          some (sub ++ "📄 " ++ f.name)
        else none)
      let children := renderSub depth ds
      let kept := List.insertionSort (fun a b => strLt b.1 a.1 = false)
        (children.filter (fun p => !(IGNORE_PATHS.contains p.1)))
      (indent ++ "📂 " ++ n ++ "/") :: (fileLines ++ kept.flatMap (fun p => p.2 (lvl + 1)))

def renderSub (depth : ℕ) : List PyDir → List (String × (ℕ → List String))
  | [] => []
  | d :: ds => (d.name, renderDir depth d) :: renderSub depth ds

end

/-- `RepositoryProcessor.generate_tree`. -/
def generate_tree (t : PyDir) (depth : ℕ) : String := joinSep "\n" (renderDir depth t 0)

/-! ## Dependency resolution (`_resolve_import`, lines 357-369) -/

/-- `re.sub(r"^\.\.?/", "", imp)`. -/
def stripRelDot (s : String) : String :=
  if pyStartsWith ("../") s then ⟨s.data.drop 3⟩
  else if pyStartsWith ("./") s then ⟨s.data.drop 2⟩
  else s

/-- `RepositoryProcessor._resolve_import` (with `os.sep = "/"`).  First
candidate, first file wins; the file matches by suffix or containment. -/
def resolve_import (imp : String) (all_files : List String) : Option String :=
  let candidates := [
    pyReplaceChar '.' '/' imp,
    pyReplaceChar '.' '/' imp ++ ".py",
    pyReplaceChar '/' '/' imp,
    pyReplaceChar '/' '/' imp ++ ".js",
    pyReplaceChar '/' '/' imp ++ ".ts",
    pyReplaceChar '/' '/' imp ++ ".tsx",
    pyReplaceChar '/' '/' imp ++ ".jsx",
    stripRelDot imp]
  candidates.findSome? (fun c => all_files.find? (fun f => pyEndsWith c f || pyContains c f))

/-- The dependency links of one record (lines 448-452): an import resolving
to a truthy target different from the source produces one link. -/
def linksFor (keys : List String) (m : FileNodeInfo) : List DepLink :=
  m.imports.filterMap (fun imp =>
    match resolve_import imp keys with
    | some t =>
      if t ≠ "" ∧ t ≠ m.relative_path then some ⟨m.relative_path, t, "imports", imp⟩
      else none
    | none => none)

def linksAll (keys : List String) : List FileNodeInfo → List DepLink
  | [] => []
  | m :: ms => linksFor keys m ++ linksAll keys ms

/-- The `dep_links` list (lines 446-452); `all_rels` iterates the records'
relative paths in insertion order. -/
def dep_links_of (metas : List FileNodeInfo) : List DepLink :=
  linksAll (dedupFirst (metas.map FileNodeInfo.relative_path)) metas

/-! ## Aggregation (hotspots, most-connected, summary; lines 454-471) -/

noncomputable def hotspots_of (metas : List FileNodeInfo) : List Hotspot :=
  ((List.insertionSort
      (fun a b : FileNodeInfo => b.complexity_score ≤ a.complexity_score) metas).take 5).map
    (fun f => ⟨f.relative_path, f.complexity_score, f.line_count, f.language⟩)

def conn_of (links : List DepLink) : List (String × ℕ) :=
  links.foldl (fun acc l => assocBump (assocBump acc l.source 1) l.target 1) []

def most_connected_of (links : List DepLink) : List (String × ℕ) :=
  (List.insertionSort (fun a b : String × ℕ => b.2 ≤ a.2) (conn_of links)).take 5

noncomputable def avg_of (metas : List FileNodeInfo) : ℝ :=
  ComplexityAnalyzer.pyRound1
    ((metas.map FileNodeInfo.complexity_score).sum / ((max metas.length 1 : ℕ) : ℝ))

/-! ## Pipeline stages of `scan_and_read` -/

noncomputable def scanStateOf (rootPath : String) (t : PyDir) (mf : ℕ) (it : Bool) : ScanSt :=
  scanDirT mf it rootPath t "" initSt

noncomputable def metasOf (rootPath : String) (t : PyDir) (mf : ℕ) (it : Bool) : List FileNodeInfo :=
  (scanStateOf rootPath t mf it).metas

noncomputable def partsOf (rootPath : String) (t : PyDir) (mf : ℕ) (it : Bool) : List String :=
  (scanStateOf rootPath t mf it).parts

noncomputable def depLinksOf (rootPath : String) (t : PyDir) (mf : ℕ) (it : Bool) : List DepLink :=
  dep_links_of (metasOf rootPath t mf it)

/-- The summary dict (`name` is `os.path.basename(self.root)`, modelled as
the root directory's own name). -/
noncomputable def summaryOf (rootPath : String) (t : PyDir) (mf : ℕ) (it : Bool) : Summary :=
  let st := scanStateOf rootPath t mf it
  let links := dep_links_of st.metas
  { name := t.name, total_files := st.metas.length, total_lines := st.totalLines,
    total_bytes := st.totalBytes, languages := st.langStats,
    dependency_links := links, hotspots := hotspots_of st.metas,
    most_connected := most_connected_of links,
    avg_complexity := avg_of st.metas }

/-! ## Payload budgeting (lines 473-541) -/

def MAX_PAYLOAD_CHARS : ℕ := 300000

def truncMarker : String := "\n...(truncated)...\n"

def lines80Marker : String := "\n...(truncated to first 80 lines)...\n"

def finalMarker : String := "\n\n...(payload truncated to fit context window)..."

/-- `json.dumps(s)` for the plain ASCII names appearing here (no escaping
is ever needed for the language names and `\w`-shaped import tokens). -/
def jsonStr (s : String) : String := "\"" ++ s ++ "\""

/-- `json.dumps(lang_stats_dict)` with default separators. -/
def jsonLangs (l : List (String × ℕ)) : String :=
  "\x7b" ++ joinSep ", " (l.map (fun p => jsonStr p.1 ++ ": " ++ natStr p.2)) ++ "\x7d"

def jsonLinkObj (l : DepLink) : String :=
  "  \x7b\n    \"source\": " ++ jsonStr l.source ++ ",\n    \"target\": " ++ jsonStr l.target
    ++ ",\n    \"type\": " ++ jsonStr l.type ++ ",\n    \"raw\": " ++ jsonStr l.raw ++ "\n  \x7d"

/-- `json.dumps(dep_links, indent=2)`. -/
def jsonLinks (ls : List DepLink) : String :=
  if ls.isEmpty then "[]" else "[\n" ++ joinSep ",\n" (ls.map jsonLinkObj) ++ "\n]"

/-- The initial header (lines 474-476). -/
noncomputable def header0Of (rootPath : String) (t : PyDir) (mf : ℕ) (it : Bool) (dep : ℕ) : String :=
  let s := summaryOf rootPath t mf it
  "REPOSITORY: " ++ s.name ++ "\nLANGUAGES: " ++ jsonLangs s.languages ++ "\n"
    ++ "FILES: " ++ natStr s.total_files ++ " | LINES: " ++ natStr s.total_lines
    ++ "\nAVG COMPLEXITY: " ++ floatStr s.avg_complexity ++ "/100\n\n"
    ++ "STRUCTURE:\n" ++ generate_tree t dep ++ "\n\nIMPORT DEPS:\n"
    ++ jsonLinks s.dependency_links ++ "\n\n"

/-- Header and remaining budget after the `remaining <= 0` fallback
(lines 480-487). -/
noncomputable def hdrOf (rootPath : String) (t : PyDir) (mf : ℕ) (it : Bool) (dep : ℕ) : String × ℤ :=
  let s := summaryOf rootPath t mf it
  let h0 := header0Of rootPath t mf it dep
  let rem0 : ℤ := (MAX_PAYLOAD_CHARS : ℤ) - h0.length
  if rem0 ≤ 0 then
    let hmin := "REPOSITORY: " ++ s.name ++ "\nFILES: " ++ natStr s.total_files ++ "\n\n"
    (hmin, (MAX_PAYLOAD_CHARS : ℤ) - hmin.length)
  else (h0, rem0)

/-- Whether the lower-cased relative path contains one of the entry-point
keywords (line 492). -/
def entryHit (m : FileNodeInfo) : Bool :=
  ["main", "app", "index", "server"].any (fun e => pyContains e (pyLower m.relative_path))

/-- The sort key of `sorted_files` (line 492): complexity plus the
entry-point bonus. -/
noncomputable def importanceKey (p : FileNodeInfo × String) : ℝ :=
  p.1.complexity_score + (if entryHit p.1 then 100 else 0)

/-- `sorted_files` (lines 490-494): stable descending by importance. -/
noncomputable def sortedOf (rootPath : String) (t : PyDir) (mf : ℕ) (it : Bool) :
    List (FileNodeInfo × String) :=
  let st := scanStateOf rootPath t mf it
  List.insertionSort (fun a b => importanceKey b ≤ importanceKey a) (st.metas.zip st.parts)

/-- `total_code` (line 497). -/
noncomputable def totalCodeOf (rootPath : String) (t : PyDir) (mf : ℕ) (it : Bool) : ℕ :=
  ((sortedOf rootPath t mf it).map (fun p => p.2.length)).sum

/-- The per-rank budget loop (lines 504-533), with `i` the enumeration index
and `used` the running counter. -/
noncomputable def budgetLoop (remaining : ℤ) :
    List (FileNodeInfo × String) → ℕ → ℤ → List String
  | [], _, _ => []
  | (meta, part) :: rest, i, used =>
    let pb : String × ℤ :=
      if i < 5 then (part, min (min ((part.length : ℤ)) 60000) (remaining - used))
      else if i < 15 then (part, min (min ((part.length : ℤ)) 10000) (remaining - used))
      else
        let lns := pySplitNL part
        let base := joinSep "\n" (lns.take 80)
        let trimmed := if 80 < lns.length then base ++ lines80Marker else base
        (trimmed, min (min ((trimmed.length : ℤ)) 3000) (remaining - used))
    let part' := pb.1
    let budget := pb.2
    if budget ≤ 0 then
      let headerLine :=
        if part' ≠ "" then (pySplitNL part').headD ""
        else "--- FILE: " ++ meta.relative_path ++ " (content omitted - token limit) ---"
      (headerLine ++ "\n") :: budgetLoop remaining rest (i + 1) (used + headerLine.length + 1)
    else
      let t0 := pyTakeStr budget.toNat part'
      let t1 := if budget < (part'.length : ℤ) then t0 ++ truncMarker else t0
      t1 :: budgetLoop remaining rest (i + 1) (used + t1.length)

/-- `final_parts` (lines 496-533): everything verbatim when it fits,
else the budget loop. -/
noncomputable def finalPartsOf (rootPath : String) (t : PyDir) (mf : ℕ) (it : Bool) (dep : ℕ) :
    List String :=
  let sorted := sortedOf rootPath t mf it
  let rem := (hdrOf rootPath t mf it dep).2
  if (totalCodeOf rootPath t mf it : ℤ) ≤ rem then sorted.map Prod.snd
  else budgetLoop rem sorted 0 0

/-- The final payload (lines 535-539), including the hard ceiling check. -/
noncomputable def payloadOf (rootPath : String) (t : PyDir) (mf : ℕ) (it : Bool) (dep : ℕ) : String :=
  let p1 := (hdrOf rootPath t mf it dep).1 ++ concatAll (finalPartsOf rootPath t mf it dep)
  if MAX_PAYLOAD_CHARS < p1.length then pyTakeStr MAX_PAYLOAD_CHARS p1 ++ finalMarker else p1

/-- `RepositoryProcessor.scan_and_read`: the returned triple. -/
noncomputable def scan_and_read (rootPath : String) (t : PyDir) (mf : ℕ) (it : Bool) (dep : ℕ) :
    String × List FileNodeInfo × Summary :=
  (payloadOf rootPath t mf it dep,
   (scanStateOf rootPath t mf it).metas,
   summaryOf rootPath t mf it)

/-- The `analyze` endpoint's post-scan gate (lines 831-833): an empty record
list raises `HTTPException(400, "No source files found.")` before any model
call; modelled as `Except.error`. -/
noncomputable def analyzeCore (rootPath : String) (t : PyDir) (mf : ℕ) (it : Bool) (dep : ℕ) :
    Except String (String × List FileNodeInfo × Summary) :=
  let r := scan_and_read rootPath t mf it dep
  if r.2.1.isEmpty then Except.error ("No source files found.") else Except.ok r

/-- The score formula exactly as claim C5 words it: density over `total`
(the guard has already excluded `total = 0`), nesting from 4-space units
capped at 10 levels, log-scaled length saturating at 10^4 lines, weights
0.4/0.35/0.25, capped at 100 and rounded to one decimal. -/
noncomputable def scoreSpecC5 (lines : List String) (ext : String) : ℝ :=
  if lines.length = 0 then 0
  else
    let total := lines.length
    let keywords := ComplexityAnalyzer.keywordsFor ext
    let branch_count :=
      (lines.filter (fun l => keywords.any (fun kw => pyContains kw l))).length
    let max_indent := maxD ((lines.filter hasNonSpace).map indentOf)
    let density : ℝ := min ((branch_count : ℝ) / (total : ℝ)) 1
    let nesting : ℝ := min ((max_indent : ℝ) / 4) 10 / 10
    let lengthF : ℝ := min (Real.logb 10 ((max total 1 : ℕ) : ℝ) / 4) 1
    ComplexityAnalyzer.pyRound1
      (min ((density * 0.4 + nesting * 0.35 + lengthF * 0.25) * 100) 100)

/-- The descending-importance relation used by `sorted_files`. -/
noncomputable def impDesc (a b : FileNodeInfo × String) : Prop :=
  importanceKey b ≤ importanceKey a

noncomputable instance : DecidableRel impDesc := fun a b =>
  Real.decidableLE (importanceKey b) (importanceKey a)

instance : IsTotal (FileNodeInfo × String) impDesc :=
  ⟨fun a b => le_total (importanceKey b) (importanceKey a)⟩

instance : IsTrans (FileNodeInfo × String) impDesc :=
  ⟨fun _ _ _ hab hbc => le_trans hbc hab⟩

/-- The per-rank character cap described by claim C2 (ranks 0-4, 5-14, 15+). -/
def tierCap (i : ℕ) : ℕ := if i ≤ 4 then 60000 else if i ≤ 14 then 10000 else 3000

/-- The budget allocation exactly as claim C2 (and spec §4.8 step 4) words
it: the excerpt of a rank-15+ file is first pre-truncated to its first 80
lines (elision marker if more existed); the per-file budget is the minimum
of the excerpt length, the rank-tier cap and what remains of the running
budget; a non-positive budget still contributes the excerpt's first line;
otherwise the excerpt is truncated to the budget with an elision marker when
truncation occurred. -/
noncomputable def budgetSpecLoop (remaining : ℤ) :
    List (FileNodeInfo × String) → ℕ → ℤ → List String
  | [], _, _ => []
  | (meta, part) :: rest, rank, used =>
    let excerpt :=
      if 15 ≤ rank then
        let lns := pySplitNL part
        if 80 < lns.length then joinSep "\n" (lns.take 80) ++ lines80Marker
        else joinSep "\n" (lns.take 80)
      else part
    let budget : ℤ := min (min ((excerpt.length : ℤ)) ((tierCap rank : ℤ))) (remaining - used)
    if budget ≤ 0 then
      let firstLine :=
        if excerpt ≠ "" then (pySplitNL excerpt).headD ""
        else "--- FILE: " ++ meta.relative_path ++ " (content omitted - token limit) ---"
      (firstLine ++ "\n") :: budgetSpecLoop remaining rest (rank + 1) (used + firstLine.length + 1)
    else
      let emitted :=
        if budget < (excerpt.length : ℤ) then pyTakeStr budget.toNat excerpt ++ truncMarker
        else pyTakeStr budget.toNat excerpt
      emitted :: budgetSpecLoop remaining rest (rank + 1) (used + emitted.length)

/-- Everything the walk guarantees about the record list: the cap is never
exceeded (when it held before), and the walk only appends records, all of
them within the size ceiling. -/
def GoodStep (mf : ℕ) (before after : ScanSt) : Prop :=
  (before.metas.length ≤ mf → after.metas.length ≤ mf)
  ∧ ∃ δ, after.metas = before.metas ++ δ ∧ ∀ m ∈ δ, m.size_bytes ≤ 200000

/-! ## A concrete scan on the budget path (three markdown files)

`b.md` and `c.md` are single-line files of 160000 `a`s (under the 200000
size ceiling; jointly over the 300000 payload ceiling), `main.md` is tiny
but carries the entry-point bonus.  All three score exactly 0. -/

def aRun : String := ⟨List.replicate 160000 'a'⟩

def mt4 : String := "2024-01-01T00:00:00"

def fileB4 : PyFile := ⟨"b.md", 160000, aRun, mt4⟩

def fileC4 : PyFile := ⟨"c.md", 160000, aRun, mt4⟩

def fileM4 : PyFile := ⟨"main.md", 1, "x", mt4⟩

def T4 : PyDir := .mk ("repo") [fileB4, fileC4, fileM4] []

def metaB4 : FileNodeInfo :=
  ⟨"/r/b.md", "b.md", 160000, 1, ".md", "Markdown", "#083fa1", mt4, [], 0, false⟩

def metaC4 : FileNodeInfo :=
  ⟨"/r/c.md", "c.md", 160000, 1, ".md", "Markdown", "#083fa1", mt4, [], 0, false⟩

def metaM4 : FileNodeInfo :=
  ⟨"/r/main.md", "main.md", 1, 1, ".md", "Markdown", "#083fa1", mt4, [], 0, false⟩

def partB4 : String :=
  "\n--- FILE: b.md | Markdown | 1 lines | complexity=0.0 ---\n" ++ aRun ++ "\n"

def partC4 : String :=
  "\n--- FILE: c.md | Markdown | 1 lines | complexity=0.0 ---\n" ++ aRun ++ "\n"

def partM4 : String :=
  "\n--- FILE: main.md | Markdown | 1 lines | complexity=0.0 ---\n" ++ "x" ++ "\n"

/-- Placeholder pair for positional list access. -/
noncomputable def dummyPair : FileNodeInfo × String :=
  (⟨"", "", 0, 0, "", "", "", "", [], 0, false⟩, "")


/-! ## Basic string-length lemmas -/

theorem length_mk (l : List Char) : (String.mk l).length = l.length := rfl

theorem strLength_append (a b : String) : (a ++ b).length = a.length + b.length := by
  cases a; cases b
  simp [String.length, String.instAppend, String.append]

theorem pyTakeStr_length (n : ℕ) (s : String) : (pyTakeStr n s).length = min n s.length := by
  cases s
  simp [pyTakeStr, String.length]

/-! ## Claim C1: payload size ceiling -/

/-- C1: every scan's payload has length at most `MAX_PAYLOAD_CHARS`, up to
the fixed overflow of the final elision marker appended on hard truncation. -/
theorem C1_payload_length_bounded :
    ∀ (rootPath : String) (t : PyDir) (mf : ℕ) (it : Bool) (dep : ℕ),
      (scan_and_read rootPath t mf it dep).1.length
        ≤ MAX_PAYLOAD_CHARS + finalMarker.length := by
  intro rootPath t mf it dep
  have hgen : ∀ s : String,
      (if MAX_PAYLOAD_CHARS < s.length then pyTakeStr MAX_PAYLOAD_CHARS s ++ finalMarker
       else s).length ≤ MAX_PAYLOAD_CHARS + finalMarker.length := by
    intro s
    by_cases h : MAX_PAYLOAD_CHARS < s.length
    · rw [if_pos h, strLength_append, pyTakeStr_length]
      omega
    · rw [if_neg h]
      omega
  simp only [scan_and_read, payloadOf]
  exact hgen _

/-! ## Claim C10: depth only influences the rendered tree -/

/-- C10: scans differing only in the depth configuration return the same
file records and the same summary; depth feeds only the tree text inside
the payload. -/
theorem C10_depth_invariance :
    ∀ (rootPath : String) (t : PyDir) (mf : ℕ) (it : Bool) (d1 d2 : ℕ),
      (scan_and_read rootPath t mf it d1).2 = (scan_and_read rootPath t mf it d2).2 := by
  intro _ _ _ _ _ _
  rfl

/-! ## Claim C8: determinism -/

/-- C8: scanning the same unchanged directory twice with the same
configuration yields identical payload, file records (imports included) and
summary.  In the embedding the scan is a pure function of the tree and the
configuration; the only source-level wobble, CPython's set iteration order
in `_extract_imports`, is a fixed function of the inserted strings within a
process and is modelled by a deterministic deduplication. -/
theorem C8_scan_deterministic :
    ∀ (rootPath : String) (t1 t2 : PyDir) (mf : ℕ) (it : Bool) (dep : ℕ),
      t1 = t2 →
      scan_and_read rootPath t1 mf it dep = scan_and_read rootPath t2 mf it dep := by
  intro _ _ _ _ _ _ h
  rw [h]

/-- Witness for C8 at a concrete tree. -/
theorem C8_scan_deterministic_witness :
    scan_and_read ("/w") (.mk ("w8") [] []) 120 false 6 =
      scan_and_read ("/w") (.mk ("w8") [] []) 120 false 6 :=
  C8_scan_deterministic ("/w") (.mk ("w8") [] []) (.mk ("w8") [] []) 120 false 6 rfl

/-! ## Rounding lemmas -/

theorem roundHE_nonneg {x : ℝ} (hx : 0 ≤ x) : 0 ≤ ComplexityAnalyzer.roundHE x := by
  unfold ComplexityAnalyzer.roundHE
  by_cases h : Int.fract x = 1 / 2
  · rw [if_pos h]
    have hf : (0 : ℤ) ≤ ⌊x⌋ := Int.floor_nonneg.mpr hx
    by_cases he : Even ⌊x⌋
    · rw [if_pos he]; exact hf
    · rw [if_neg he]; omega
  · rw [if_neg h, round_eq]
    exact Int.floor_nonneg.mpr (by linarith)

theorem roundHE_le_int {x : ℝ} {n : ℤ} (hx : x ≤ n) : ComplexityAnalyzer.roundHE x ≤ n := by
  unfold ComplexityAnalyzer.roundHE
  by_cases h : Int.fract x = 1 / 2
  · rw [if_pos h]
    have hfr : x - ⌊x⌋ = 1 / 2 := by
      have := h
      rw [Int.fract] at this
      linarith
    have hlt : (⌊x⌋ : ℝ) < n := by linarith
    have hZ : ⌊x⌋ < n := by exact_mod_cast hlt
    by_cases he : Even ⌊x⌋
    · rw [if_pos he]; omega
    · rw [if_neg he]; omega
  · rw [if_neg h, round_eq]
    have h1 : x + 1 / 2 ≤ (n : ℝ) + 1 / 2 := by linarith
    calc ⌊x + 1 / 2⌋ ≤ ⌊(n : ℝ) + 1 / 2⌋ := Int.floor_le_floor h1
      _ = n := by
            rw [Int.floor_eq_iff]
            constructor
            · linarith
            · linarith

theorem pyRound1_nonneg {x : ℝ} (hx : 0 ≤ x) : 0 ≤ ComplexityAnalyzer.pyRound1 x := by
  unfold ComplexityAnalyzer.pyRound1
  have h1 : (0 : ℤ) ≤ ComplexityAnalyzer.roundHE (10 * x) := roundHE_nonneg (by linarith)
  have h2 : (0 : ℝ) ≤ (ComplexityAnalyzer.roundHE (10 * x) : ℝ) := by exact_mod_cast h1
  linarith

theorem pyRound1_le_100 {x : ℝ} (hx : x ≤ 100) : ComplexityAnalyzer.pyRound1 x ≤ 100 := by
  unfold ComplexityAnalyzer.pyRound1
  have h1 : ComplexityAnalyzer.roundHE (10 * x) ≤ (1000 : ℤ) :=
    roundHE_le_int (by push_cast; linarith)
  have h2 : (ComplexityAnalyzer.roundHE (10 * x) : ℝ) ≤ 1000 := by exact_mod_cast h1
  linarith

theorem roundHE_zero : ComplexityAnalyzer.roundHE 0 = 0 := by
  unfold ComplexityAnalyzer.roundHE
  rw [if_neg, round_zero]
  rw [Int.fract_zero]
  norm_num

theorem pyRound1_zero : ComplexityAnalyzer.pyRound1 0 = 0 := by
  unfold ComplexityAnalyzer.pyRound1
  rw [mul_zero, roundHE_zero]
  norm_num

theorem floatStr_zero : floatStr 0 = "0.0" := by
  unfold floatStr
  rw [mul_zero, round_zero]
  rfl

/-! ## Claim C5: the complexity score -/

/-- C5: the score is within [0,100], is 0 on an empty line list, factors
through the line split, and equals the claim's formula. -/
theorem C5_complexity_score :
    (∀ (lines : List String) (ext : String),
        0 ≤ ComplexityAnalyzer.scoreLines lines ext
          ∧ ComplexityAnalyzer.scoreLines lines ext ≤ 100)
    ∧ (∀ ext : String, ComplexityAnalyzer.scoreLines [] ext = 0)
    ∧ (∀ (content ext : String),
        ComplexityAnalyzer.score content ext
          = ComplexityAnalyzer.scoreLines (pySplitNL content) ext)
    ∧ (∀ (lines : List String) (ext : String),
        ComplexityAnalyzer.scoreLines lines ext = scoreSpecC5 lines ext) := by
  refine ⟨?_, ?_, ?_, ?_⟩
  · intro lines ext
    simp only [ComplexityAnalyzer.scoreLines]
    split
    · norm_num
    · have hd : (0 : ℝ) ≤
          min (((lines.filter (fun l =>
            (ComplexityAnalyzer.keywordsFor ext).any (fun kw => pyContains kw l))).length : ℝ)
              / ((max lines.length 1 : ℕ) : ℝ)) 1 := by
        apply le_min
        · apply div_nonneg <;> positivity
        · norm_num
      have hn : (0 : ℝ) ≤
          min (((maxD ((lines.filter hasNonSpace).map indentOf) : ℕ) : ℝ) / 4) 10 / 10 := by
        apply div_nonneg
        · apply le_min
          · positivity
          · norm_num
        · norm_num
      have hl : (0 : ℝ) ≤
          min (Real.logb 10 ((max lines.length 1 : ℕ) : ℝ) / 4) 1 := by
        apply le_min
        · apply div_nonneg
          · apply Real.logb_nonneg (by norm_num)
            have : 1 ≤ max lines.length 1 := le_max_right _ _
            exact_mod_cast this
          · norm_num
        · norm_num
      constructor
      · apply pyRound1_nonneg
        apply le_min
        · nlinarith [hd, hn, hl]
        · norm_num
      · exact pyRound1_le_100 (min_le_right _ _)
  · intro ext
    simp [ComplexityAnalyzer.scoreLines]
  · intro content ext
    rfl
  · intro lines ext
    simp only [ComplexityAnalyzer.scoreLines, scoreSpecC5]
    split
    · rfl
    · rename_i h
      have hmax : max lines.length 1 = lines.length := Nat.max_eq_left (by omega)
      rw [hmax]

/-! ## Claim C3: importance score and descending order -/

theorem sortedOf_eq_insertionSort (rootPath : String) (t : PyDir) (mf : ℕ) (it : Bool) :
    sortedOf rootPath t mf it =
      List.insertionSort impDesc ((metasOf rootPath t mf it).zip (partsOf rootPath t mf it)) := by
  rfl

/-- C3: the importance score equals complexity plus 100 exactly when the
lower-cased relative path contains an entry-point keyword (else it is the
bare complexity), and the (record, excerpt) pairs are sorted by importance
descending — a permutation of the zipped scan output — before any budget
decision uses them. -/
theorem C3_importance_ranking :
    (∀ p : FileNodeInfo × String,
        (importanceKey p = p.1.complexity_score + 100 ↔ entryHit p.1 = true)
        ∧ (entryHit p.1 = false → importanceKey p = p.1.complexity_score))
    ∧ (∀ (rootPath : String) (t : PyDir) (mf : ℕ) (it : Bool),
        (sortedOf rootPath t mf it).Pairwise
            (fun a b => importanceKey b ≤ importanceKey a)
        ∧ (sortedOf rootPath t mf it).Perm
            ((metasOf rootPath t mf it).zip (partsOf rootPath t mf it))) := by
  constructor
  · intro p
    unfold importanceKey
    cases h : entryHit p.1
    · constructor
      · constructor
        · intro habs
          simp only [Bool.false_eq_true, if_false] at habs
          exfalso
          have h0 : (0 : ℝ) = 100 := by linarith
          norm_num at h0
        · intro hT
          exact absurd hT (by simp)
      · intro _
        simp
    · constructor
      · simp
      · intro habs
        exact absurd habs (by simp)
  · intro rootPath t mf it
    constructor
    · rw [sortedOf_eq_insertionSort]
      exact List.sorted_insertionSort impDesc _
    · rw [sortedOf_eq_insertionSort]
      exact List.perm_insertionSort impDesc _

/-! ## Claim C2: per-tier budgets -/

theorem budgetLoop_eq_specLoop (rem : ℤ) :
    ∀ (l : List (FileNodeInfo × String)) (i : ℕ) (used : ℤ),
      budgetLoop rem l i used = budgetSpecLoop rem l i used := by
  intro l
  induction l with
  | nil => intro i used; rfl
  | cons hd tl ih =>
    intro i used
    obtain ⟨meta, part⟩ := hd
    by_cases h5 : i < 5
    · have hc : ((tierCap i : ℕ) : ℤ) = 60000 := by
        unfold tierCap
        rw [if_pos (by omega)]
        norm_num
      have h15 : ¬ 15 ≤ i := by omega
      simp only [budgetLoop, budgetSpecLoop, hc]
      rw [if_pos h5, if_neg h15]
      dsimp only
      split
      · rw [ih]
      · rw [ih]
    · by_cases h15 : i < 15
      · have hc : ((tierCap i : ℕ) : ℤ) = 10000 := by
          unfold tierCap
          rw [if_neg (by omega), if_pos (by omega)]
          norm_num
        have h15' : ¬ 15 ≤ i := by omega
        simp only [budgetLoop, budgetSpecLoop, hc]
        rw [if_neg h5, if_pos h15, if_neg h15']
        dsimp only
        split
        · rw [ih]
        · rw [ih]
      · have hc : ((tierCap i : ℕ) : ℤ) = 3000 := by
          unfold tierCap
          rw [if_neg (by omega), if_neg (by omega)]
          norm_num
        have h15' : 15 ≤ i := by omega
        simp only [budgetLoop, budgetSpecLoop, hc]
        rw [if_neg h5, if_neg h15, if_pos h15']
        by_cases h80 : 80 < (pySplitNL part).length
        · rw [if_pos h80]
          dsimp only
          split
          · rw [ih]
          · rw [ih]
        · rw [if_neg h80]
          dsimp only
          split
          · rw [ih]
          · rw [ih]

/-- C2: the source's budget loop implements exactly the tiered allocation
described by the claim, and on the non-everything-fits path `final_parts`
is that allocation applied to the importance-sorted pairs and the remaining
budget after the header. -/
theorem C2_tiered_budgets :
    (∀ (remaining : ℤ) (l : List (FileNodeInfo × String)) (i : ℕ) (used : ℤ),
        budgetLoop remaining l i used = budgetSpecLoop remaining l i used)
    ∧ (∀ (rootPath : String) (t : PyDir) (mf : ℕ) (it : Bool) (dep : ℕ),
        finalPartsOf rootPath t mf it dep =
          if (totalCodeOf rootPath t mf it : ℤ) ≤ (hdrOf rootPath t mf it dep).2
          then (sortedOf rootPath t mf it).map Prod.snd
          else budgetSpecLoop ((hdrOf rootPath t mf it dep).2) (sortedOf rootPath t mf it) 0 0) := by
  constructor
  · intro remaining l i used
    exact budgetLoop_eq_specLoop remaining l i used
  · intro rootPath t mf it dep
    show (if (totalCodeOf rootPath t mf it : ℤ) ≤ (hdrOf rootPath t mf it dep).2
          then (sortedOf rootPath t mf it).map Prod.snd
          else budgetLoop ((hdrOf rootPath t mf it dep).2) (sortedOf rootPath t mf it) 0 0) = _
    rw [budgetLoop_eq_specLoop]

/-! ## Claim C6: max-files cap and size ceiling -/

theorem GoodStep_comp {mf : ℕ} {s1 s2 s3 : ScanSt}
    (h12 : GoodStep mf s1 s2) (h23 : GoodStep mf s2 s3) : GoodStep mf s1 s3 := by
  obtain ⟨hl12, δ1, he1, hs1⟩ := h12
  obtain ⟨hl23, δ2, he2, hs2⟩ := h23
  refine ⟨fun h => hl23 (hl12 h), δ1 ++ δ2, ?_, ?_⟩
  · rw [he2, he1, List.append_assoc]
  · intro m hm
    rcases List.mem_append.mp hm with h | h
    · exact hs1 m h
    · exact hs2 m h

theorem GoodStep_refl {mf : ℕ} {s : ScanSt} : GoodStep mf s s :=
  ⟨fun h => h, [], by simp, by simp⟩

theorem processFile_size_le {rootPath relAcc : String} {f : PyFile} {fi : FileNodeInfo}
    {part : String} (h : processFile rootPath relAcc f = some (fi, part)) :
    fi.size_bytes ≤ 200000 := by
  simp only [processFile] at h
  split at h
  · exact absurd h (by simp)
  · split at h
    · exact absurd h (by simp)
    · rename_i hsz
      split at h
      · exact absurd h (by simp)
      · rw [Option.some.injEq, Prod.mk.injEq] at h
        obtain ⟨hfi, -⟩ := h
        rw [← hfi]
        dsimp only
        omega

theorem scanFiles_good (mf : ℕ) (rootPath relAcc : String) :
    ∀ (fs : List PyFile) (st : ScanSt), GoodStep mf st (scanFiles mf rootPath relAcc fs st) := by
  intro fs
  induction fs with
  | nil => intro st; exact GoodStep_refl
  | cons f fs ih =>
    intro st
    show GoodStep mf st (scanFiles mf rootPath relAcc (f :: fs) st)
    rw [scanFiles]
    by_cases hbr : mf ≤ st.metas.length
    · rw [if_pos hbr]; exact GoodStep_refl
    · rw [if_neg hbr]
      cases hpf : processFile rootPath relAcc f with
      | none => exact ih st
      | some pr =>
        obtain ⟨fi, part⟩ := pr
        have hstep : GoodStep mf st
            { metas := st.metas ++ [fi], parts := st.parts ++ [part],
              langStats := assocBump st.langStats fi.language fi.line_count,
              totalLines := st.totalLines + fi.line_count,
              totalBytes := st.totalBytes + fi.size_bytes } := by
          refine ⟨?_, [fi], by simp, ?_⟩
          · intro _
            simp only [List.length_append, List.length_cons, List.length_nil]
            omega
          · intro m hm
            rw [List.mem_singleton] at hm
            rw [hm]
            exact processFile_size_le hpf
        exact GoodStep_comp hstep (ih _)

theorem foldl_good (mf : ℕ) (relAcc : String) :
    ∀ (l : List (String × (String → ScanSt → ScanSt))),
      (∀ p ∈ l, ∀ (rel : String) (st : ScanSt), GoodStep mf st (p.2 rel st)) →
      ∀ st : ScanSt,
        GoodStep mf st (l.foldl (fun s p => p.2 (relAcc ++ p.1 ++ "/") s) st) := by
  intro l
  induction l with
  | nil => intro _ st; exact GoodStep_refl
  | cons p l ih =>
    intro hall st
    rw [List.foldl_cons]
    exact GoodStep_comp (hall p (List.mem_cons_self p l) _ st)
      (ih (fun q hq => hall q (List.mem_cons_of_mem p hq)) _)

mutual

theorem scanDirT_good (mf : ℕ) (it : Bool) (rootPath : String) :
    ∀ (d : PyDir) (relAcc : String) (st : ScanSt),
      GoodStep mf st (scanDirT mf it rootPath d relAcc st)
  | .mk n fs ds, relAcc, st => by
    rw [scanDirT]
    refine GoodStep_comp (scanFiles_good mf rootPath relAcc (sortFiles fs) st) ?_
    apply foldl_good
    intro p hp rel st'
    have hp2 : p ∈ scanSubT mf it rootPath ds := by
      cases it
      · simp at hp
        exact hp.1.1
      · simp at hp
        exact hp.1
    exact scanSubT_good mf it rootPath ds p hp2 rel st'

theorem scanSubT_good (mf : ℕ) (it : Bool) (rootPath : String) :
    ∀ (l : List PyDir), ∀ p ∈ scanSubT mf it rootPath l,
      ∀ (rel : String) (st : ScanSt), GoodStep mf st (p.2 rel st)
  | [], p, hp, _, _ => by
    rw [scanSubT] at hp
    exact absurd hp (by simp)
  | d :: ds, p, hp, rel, st => by
    rw [scanSubT] at hp
    rcases List.mem_cons.mp hp with h | h
    · rw [h]
      exact scanDirT_good mf it rootPath d rel st
    · exact scanSubT_good mf it rootPath ds p h rel st

end

/-- C6: a scan returns at most `max_files` records; every record's size is
at most 200000 bytes (oversized files are never recorded); and the walk only
ever appends to the already-accepted record list. -/
theorem C6_cap_and_size_ceiling :
    ∀ (rootPath : String) (t : PyDir) (mf : ℕ) (it : Bool),
      (metasOf rootPath t mf it).length ≤ mf
      ∧ (metasOf rootPath t mf it).Forall (fun m => m.size_bytes ≤ 200000)
      ∧ (∀ (d : PyDir) (relAcc : String) (st : ScanSt),
          List.IsPrefix st.metas (scanDirT mf it rootPath d relAcc st).metas) := by
  intro rootPath t mf it
  obtain ⟨hlen, δ, heq, hsz⟩ := scanDirT_good mf it rootPath t ("") initSt
  have hdef : metasOf rootPath t mf it = (scanDirT mf it rootPath t ("") initSt).metas := rfl
  refine ⟨?_, ?_, ?_⟩
  · rw [hdef]
    exact hlen (by simp [initSt])
  · rw [List.forall_iff_forall_mem]
    intro m hm
    rw [hdef, heq] at hm
    exact hsz m (by simpa [initSt] using hm)
  · intro d relAcc st
    obtain ⟨-, δ2, heq2, -⟩ := scanDirT_good mf it rootPath d relAcc st
    exact ⟨δ2, heq2.symm⟩

/-! ## Claim C7: dependency link endpoints -/

theorem mem_dedupFirst_aux :
    ∀ (l acc : List String) (x : String),
      x ∈ l.foldl (fun acc y => if y ∈ acc then acc else acc ++ [y]) acc →
      x ∈ acc ∨ x ∈ l := by
  intro l
  induction l with
  | nil => intro acc x h; exact Or.inl h
  | cons y l ih =>
    intro acc x h
    rw [List.foldl_cons] at h
    by_cases hy : y ∈ acc
    · rw [if_pos hy] at h
      rcases ih acc x h with h2 | h2
      · exact Or.inl h2
      · exact Or.inr (List.mem_cons_of_mem y h2)
    · rw [if_neg hy] at h
      rcases ih (acc ++ [y]) x h with h2 | h2
      · rcases List.mem_append.mp h2 with h3 | h3
        · exact Or.inl h3
        · exact Or.inr (by simpa using Or.inl (List.mem_singleton.mp h3))
      · exact Or.inr (List.mem_cons_of_mem y h2)

theorem mem_dedupFirst {l : List String} {x : String} (h : x ∈ dedupFirst l) : x ∈ l := by
  rcases mem_dedupFirst_aux l [] x h with h2 | h2
  · exact absurd h2 (by simp)
  · exact h2

theorem resolve_import_mem {imp t : String} {keys : List String}
    (h : resolve_import imp keys = some t) : t ∈ keys := by
  unfold resolve_import at h
  obtain ⟨c, -, hc⟩ := List.exists_of_findSome?_eq_some h
  exact List.mem_of_find?_eq_some hc

theorem linksAll_mem {keys : List String} {lk : DepLink} :
    ∀ {ms : List FileNodeInfo}, lk ∈ linksAll keys ms → ∃ m ∈ ms, lk ∈ linksFor keys m := by
  intro ms
  induction ms with
  | nil => intro h; exact absurd h (by simp [linksAll])
  | cons m ms ih =>
    intro h
    rw [linksAll] at h
    rcases List.mem_append.mp h with h2 | h2
    · exact ⟨m, List.mem_cons_self m ms, h2⟩
    · obtain ⟨m2, hm2, hlk⟩ := ih h2
      exact ⟨m2, List.mem_cons_of_mem m hm2, hlk⟩

theorem dep_links_prop (metas : List FileNodeInfo) :
    (dep_links_of metas).Forall (fun lk =>
      lk.source ≠ lk.target
      ∧ lk.source ∈ metas.map FileNodeInfo.relative_path
      ∧ lk.target ∈ metas.map FileNodeInfo.relative_path
      ∧ resolve_import lk.raw
          (dedupFirst (metas.map FileNodeInfo.relative_path)) = some lk.target) := by
  rw [List.forall_iff_forall_mem]
  intro lk hlk
  unfold dep_links_of at hlk
  obtain ⟨m, hm, hlk2⟩ := linksAll_mem hlk
  unfold linksFor at hlk2
  obtain ⟨imp, himp, hg⟩ := List.mem_filterMap.mp hlk2
  split at hg
  · rename_i tgt heq
    split at hg
    · rename_i hcond
      rw [Option.some.injEq] at hg
      obtain ⟨hne, hnt⟩ := hcond
      rw [← hg]
      refine ⟨?_, ?_, ?_, ?_⟩
      · intro habs
        exact hnt (by simpa using habs.symm)
      · exact List.mem_map.mpr ⟨m, hm, rfl⟩
      · exact mem_dedupFirst (resolve_import_mem heq)
      · exact heq
    · exact absurd hg (by simp)
  · exact absurd hg (by simp)

/-- C7: every dependency link has distinct endpoints, both of which are
relative paths of returned records, and each link is produced by a
successful resolution of its raw import (unresolved imports produce no
link). -/
theorem C7_link_endpoints :
    ∀ (rootPath : String) (t : PyDir) (mf : ℕ) (it : Bool),
      (depLinksOf rootPath t mf it).Forall (fun lk =>
        lk.source ≠ lk.target
        ∧ lk.source ∈ (metasOf rootPath t mf it).map FileNodeInfo.relative_path
        ∧ lk.target ∈ (metasOf rootPath t mf it).map FileNodeInfo.relative_path
        ∧ resolve_import lk.raw
            (dedupFirst ((metasOf rootPath t mf it).map FileNodeInfo.relative_path))
          = some lk.target) := by
  intro rootPath t mf it
  exact dep_links_prop (metasOf rootPath t mf it)

/-! ## Claim C9: empty scans are signalled -/

/-- C9: when a scan accepts zero files, `analyze` raises
`HTTPException(400, "No source files found.")` — modelled as a distinct
`Except.error` — before any downstream consumer is invoked. -/
theorem C9_empty_result_signalled :
    ∀ (rootPath : String) (t : PyDir) (mf : ℕ) (it : Bool) (dep : ℕ),
      (scan_and_read rootPath t mf it dep).2.1.isEmpty = true →
      analyzeCore rootPath t mf it dep = Except.error ("No source files found.") := by
  intro rootPath t mf it dep h
  unfold analyzeCore
  rw [if_pos h]

/-- Witness for C9: the empty directory scans to zero records and the
analyze gate errors out. -/
theorem C9_empty_result_witness :
    (scan_and_read ("/e") (.mk ("e9") [] []) 120 false 6).2.1.isEmpty = true
    ∧ analyzeCore ("/e") (.mk ("e9") [] []) 120 false 6
        = Except.error ("No source files found.") :=
  ⟨rfl, C9_empty_result_signalled ("/e") (.mk ("e9") [] []) 120 false 6 rfl⟩

/-! ## Evaluation lemmas on replicated content

These drive the concrete three-file scan used by claim C4: two 160000-char
single-line files and a short `main.md`. -/

theorem splitChar_of_no_sep {sep : Char} :
    ∀ {l : List Char}, (∀ c ∈ l, c ≠ sep) → splitChar sep l = [l] := by
  intro l
  induction l with
  | nil => intro _; rfl
  | cons c cs ih =>
    intro h
    rw [splitChar, ih (fun x hx => h x (List.mem_cons_of_mem c hx))]
    dsimp only
    rw [if_neg (h c (List.mem_cons_self c cs))]

theorem pySplitNL_of_no_nl {s : String} (h : ∀ c ∈ s.data, c ≠ '\n') :
    pySplitNL s = [s] := by
  unfold pySplitNL
  rw [splitChar_of_no_sep h]
  cases s
  rfl

theorem isPrefixOf_replicate_false {c : Char} {cs : List Char} {a : Char} (hne : ¬ c = a) :
    ∀ n, (c :: cs).isPrefixOf (List.replicate n a) = false := by
  intro n
  cases n with
  | zero => rfl
  | succ n =>
    rw [List.replicate_succ]
    simp [List.isPrefixOf, hne]

theorem pyContains_replicate_false {needle : String} {c : Char} {cs : List Char} {a : Char}
    (hn : needle.data = c :: cs) (hne : ¬ c = a) :
    ∀ n, pyContains needle ⟨List.replicate n a⟩ = false := by
  intro n
  induction n with
  | zero =>
    unfold pyContains
    rw [hn]
    rfl
  | succ n ih =>
    unfold pyContains at ih ⊢
    rw [hn] at ih ⊢
    rw [List.replicate_succ, List.tails_cons, List.any_cons]
    have h1 : (c :: cs).isPrefixOf (a :: List.replicate n a) = false := by
      simp [List.isPrefixOf, hne]
    rw [h1]
    simpa using ih

theorem takeWhile_replicate_false {p : Char → Bool} {a : Char} (hp : p a = false) :
    ∀ n, (List.replicate n a).takeWhile p = [] := by
  intro n
  cases n with
  | zero => rfl
  | succ n =>
    rw [List.replicate_succ]
    simp [List.takeWhile, hp]

/-- The `.md` extension has no `BRANCH_KW` entry: the generic fallback
keyword set applies. -/
theorem keywordsFor_md : ComplexityAnalyzer.keywordsFor (".md") = ["if ", "for ", "while "] := rfl

/-- A single line containing none of the fallback keywords and no leading
whitespace scores exactly 0 (density 0, nesting 0, log10(1) = 0). -/
theorem scoreLines_single_zero (l : String)
    (hIf : pyContains ("if ") l = false) (hFor : pyContains ("for ") l = false)
    (hWhile : pyContains ("while ") l = false) (hind : indentOf l = 0) :
    ComplexityAnalyzer.scoreLines [l] (".md") = 0 := by
  have harg : ComplexityAnalyzer.scoreLines [l] (".md") =
      ComplexityAnalyzer.pyRound1 (min ((min ((0 : ℝ) / 1) 1 * 0.4
        + min ((0 : ℝ) / 4) 10 / 10 * 0.35
        + min (Real.logb 10 1 / 4) 1 * 0.25) * 100) 100) := by
    simp only [ComplexityAnalyzer.scoreLines, keywordsFor_md]
    rw [if_neg (by simp)]
    have hpred : (fun x => (["if ", "for ", "while "]).any (fun kw => pyContains kw x)) l
        = false := by
      simp [hIf, hFor, hWhile]
    have hfilter : ([l].filter (fun x => (["if ", "for ", "while "]).any
        (fun kw => pyContains kw x))) = [] := by
      simp [List.filter, hpred]
    rw [hfilter]
    have hmax : maxD (([l].filter hasNonSpace).map indentOf) = 0 := by
      cases hns : hasNonSpace l
      · simp [List.filter, hns, maxD]
      · simp [List.filter, hns, maxD, hind]
    rw [hmax]
    norm_num
  rw [harg]
  rw [Real.logb_one]
  norm_num
  exact pyRound1_zero

theorem aRun_no_nl : ∀ c ∈ aRun.data, c ≠ '\n' := by
  intro c hc
  have hdata : aRun.data = List.replicate 160000 'a' := rfl
  rw [hdata] at hc
  have h1 : c = 'a' := List.eq_of_mem_replicate hc
  rw [h1]
  decide

theorem pySplitNL_aRun : pySplitNL aRun = [aRun] := pySplitNL_of_no_nl aRun_no_nl

theorem score_aRun : ComplexityAnalyzer.score aRun (".md") = 0 := by
  unfold ComplexityAnalyzer.score
  rw [pySplitNL_aRun]
  apply scoreLines_single_zero
  · show pyContains ("if ") ⟨List.replicate 160000 'a'⟩ = false
    exact @pyContains_replicate_false ("if ") 'i' ['f', ' '] 'a' rfl (by decide) 160000
  · show pyContains ("for ") ⟨List.replicate 160000 'a'⟩ = false
    exact @pyContains_replicate_false ("for ") 'f' ['o', 'r', ' '] 'a' rfl (by decide) 160000
  · show pyContains ("while ") ⟨List.replicate 160000 'a'⟩ = false
    exact @pyContains_replicate_false ("while ") 'w' ['h', 'i', 'l', 'e', ' '] 'a' rfl
      (by decide) 160000
  · show ((List.replicate 160000 'a').takeWhile isPySpace).length = 0
    rw [takeWhile_replicate_false (by decide)]
    rfl

theorem score_x : ComplexityAnalyzer.score ("x") (".md") = 0 := by
  unfold ComplexityAnalyzer.score
  rw [show pySplitNL ("x") = ["x"] from rfl]
  apply scoreLines_single_zero
  · decide
  · decide
  · decide
  · decide

/-- Evaluation of `processFile` for a single-line zero-score `.md` file.
`content` stays a variable throughout, so no tactic ever evaluates the
(possibly huge) file text. -/
theorem processFile_md_single {rootPath relAcc name content mtime : String} {sz : ℕ}
    (hext : pyLower (pySuffix name) = ".md")
    (hspec : ((SPECIAL_FILENAMES.map Prod.fst).contains name
        || (SPECIAL_FILENAMES.map (fun p => pyLower p.1)).contains (pyLower name)) = false)
    (hsz : ¬ 200000 < sz)
    (hsplit : pySplitNL content = [content])
    (hscore : ComplexityAnalyzer.score content (".md") = 0) :
    processFile rootPath relAcc ⟨name, sz, content, mtime⟩ =
      some (⟨rootPath ++ "/" ++ (relAcc ++ name), relAcc ++ name, sz, 1, ".md", "Markdown",
             "#083fa1", mtime, [], 0, pyContains ("test") (pyLower (relAcc ++ name))⟩,
        "\n--- FILE: " ++ (relAcc ++ name) ++ " | " ++ "Markdown" ++ " | " ++ natStr 1
          ++ " lines | complexity=" ++ "0.0" ++ " ---\n" ++ content ++ "\n") := by
  have hsup : SUPPORTED_EXTENSIONS.contains (".md") = true := by decide
  have himp : extract_imports content (".md") = some [] := by
    unfold extract_imports
    rw [if_neg (by decide)]
    unfold importMatches
    rw [if_neg (by decide), if_neg (by decide), if_neg (by decide), if_neg (by decide),
      if_neg (by decide)]
    rfl
  have hinfo : (List.lookup (".md") LANGUAGE_MAP).getD ⟨"Unknown", "#888"⟩
      = (⟨"Markdown", "#083fa1"⟩ : LangInfo) := by decide
  simp only [processFile]
  rw [hext, hsplit, hscore, floatStr_zero, hspec, hsup]
  rw [if_neg (by decide : ¬ ((!true && !false) = true))]
  rw [if_neg hsz]
  rw [himp]
  dsimp only
  rw [hinfo]
  simp

theorem processFile_B4 : processFile ("/r") ("") fileB4 = some (metaB4, partB4) := by
  have h := @processFile_md_single ("/r") ("") ("b.md") aRun mt4 160000
    (by decide) (by decide) (by norm_num) pySplitNL_aRun score_aRun
  rw [show processFile ("/r") ("") fileB4
      = processFile ("/r") ("") ⟨"b.md", 160000, aRun, mt4⟩ from rfl]
  rw [h]
  rfl

theorem processFile_C4 : processFile ("/r") ("") fileC4 = some (metaC4, partC4) := by
  have h := @processFile_md_single ("/r") ("") ("c.md") aRun mt4 160000
    (by decide) (by decide) (by norm_num) pySplitNL_aRun score_aRun
  rw [show processFile ("/r") ("") fileC4
      = processFile ("/r") ("") ⟨"c.md", 160000, aRun, mt4⟩ from rfl]
  rw [h]
  rfl

theorem processFile_M4 : processFile ("/r") ("") fileM4 = some (metaM4, partM4) := by
  have h := @processFile_md_single ("/r") ("") ("main.md") ("x") mt4 1
    (by decide) (by decide) (by norm_num) (by rfl) score_x
  rw [show processFile ("/r") ("") fileM4
      = processFile ("/r") ("") ⟨"main.md", 1, "x", mt4⟩ from rfl]
  rw [h]
  rfl

theorem scanFiles_cons_some {mf : ℕ} {rootPath relAcc : String} {f : PyFile} {fs : List PyFile}
    {st : ScanSt} {fi : FileNodeInfo} {part : String}
    (hlen : ¬ mf ≤ st.metas.length) (hpf : processFile rootPath relAcc f = some (fi, part)) :
    scanFiles mf rootPath relAcc (f :: fs) st =
      scanFiles mf rootPath relAcc fs
        { metas := st.metas ++ [fi], parts := st.parts ++ [part],
          langStats := assocBump st.langStats fi.language fi.line_count,
          totalLines := st.totalLines + fi.line_count,
          totalBytes := st.totalBytes + fi.size_bytes } := by
  rw [scanFiles, if_neg hlen, hpf]

theorem scanStateOf_T4 :
    scanStateOf ("/r") T4 120 false =
      ⟨[metaB4, metaC4, metaM4], [partB4, partC4, partM4], [("Markdown", 3)], 3, 320001⟩ := by
  have hsort : sortFiles [fileB4, fileC4, fileM4] = [fileB4, fileC4, fileM4] := rfl
  show scanDirT 120 false ("/r") T4 ("") initSt = _
  rw [show T4 = PyDir.mk ("repo") [fileB4, fileC4, fileM4] [] from rfl]
  simp only [scanDirT, scanSubT, List.filter_nil, List.insertionSort, List.foldl_nil]
  rw [hsort]
  rw [scanFiles_cons_some (by simp [initSt]) processFile_B4]
  rw [scanFiles_cons_some (by simp [initSt]) processFile_C4]
  rw [scanFiles_cons_some (by simp [initSt]) processFile_M4]
  rw [scanFiles]
  rfl

theorem entryHit_M4 : entryHit metaM4 = true := rfl

theorem entryHit_B4 : entryHit metaB4 = false := rfl

theorem entryHit_C4 : entryHit metaC4 = false := rfl

theorem key_M4 : importanceKey (metaM4, partM4) = 100 := by
  unfold importanceKey
  rw [entryHit_M4]
  simp [metaM4]

theorem key_B4 : importanceKey (metaB4, partB4) = 0 := by
  unfold importanceKey
  rw [entryHit_B4]
  simp [metaB4]

theorem key_C4 : importanceKey (metaC4, partC4) = 0 := by
  unfold importanceKey
  rw [entryHit_C4]
  simp [metaC4]

theorem sortedOf_T4 :
    sortedOf ("/r") T4 120 false
      = [(metaM4, partM4), (metaB4, partB4), (metaC4, partC4)] := by
  unfold sortedOf
  rw [scanStateOf_T4]
  show List.insertionSort _ [(metaB4, partB4), (metaC4, partC4), (metaM4, partM4)] = _
  rw [List.insertionSort, List.insertionSort, List.insertionSort, List.insertionSort]
  have s1 : List.orderedInsert (fun a b => importanceKey b ≤ importanceKey a)
      (metaM4, partM4) [] = [(metaM4, partM4)] := rfl
  rw [s1]
  have s2 : List.orderedInsert (fun a b => importanceKey b ≤ importanceKey a)
      (metaC4, partC4) [(metaM4, partM4)] = [(metaM4, partM4), (metaC4, partC4)] := by
    rw [List.orderedInsert]
    rw [if_neg (by rw [key_M4, key_C4]; norm_num)]
    rfl
  rw [s2]
  rw [List.orderedInsert]
  rw [if_neg (by rw [key_M4, key_B4]; norm_num)]
  rw [List.orderedInsert]
  rw [if_pos (by rw [key_C4, key_B4])]

theorem aRun_len : aRun.length = 160000 := by
  show (List.replicate 160000 'a').length = 160000
  exact List.length_replicate 160000 'a'

theorem truncMarker_len : truncMarker.length = 19 := by decide

theorem partM4_len : partM4.length = 63 := by decide

theorem partB4_len : partB4.length = 160059 := by
  unfold partB4
  rw [strLength_append, strLength_append, aRun_len]
  decide

theorem partC4_len : partC4.length = 160059 := by
  unfold partC4
  rw [strLength_append, strLength_append, aRun_len]
  decide

theorem pyTakeStr_all {n : ℕ} {s : String} (h : s.length ≤ n) : pyTakeStr n s = s := by
  cases s
  unfold pyTakeStr
  rw [List.take_of_length_le h]

theorem avg_T4 : avg_of [metaB4, metaC4, metaM4] = 0 := by
  unfold avg_of
  simp [metaB4, metaC4, metaM4]
  exact pyRound1_zero

theorem deps_T4 : dep_links_of [metaB4, metaC4, metaM4] = [] := rfl

theorem header0_T4_len : (header0Of ("/r") T4 120 false 6).length ≤ 1000 := by
  unfold header0Of summaryOf
  rw [scanStateOf_T4]
  dsimp only
  rw [avg_T4, floatStr_zero, deps_T4]
  decide

theorem remaining_T4_bounds :
    299000 ≤ (hdrOf ("/r") T4 120 false 6).2 ∧ (hdrOf ("/r") T4 120 false 6).2 ≤ 300000 := by
  have hlen := header0_T4_len
  simp only [hdrOf, MAX_PAYLOAD_CHARS]
  rw [if_neg (by omega)]
  dsimp only
  omega

theorem sum_three_lengths (a b c : String) (mA mB mC : FileNodeInfo) :
    (([(mA, a), (mB, b), (mC, c)]).map (fun p => p.2.length)).sum
      = a.length + (b.length + (c.length + 0)) := rfl

theorem totalCode_T4 : totalCodeOf ("/r") T4 120 false = 320181 := by
  unfold totalCodeOf
  rw [sortedOf_T4]
  rw [sum_three_lengths]
  rw [partM4_len, partB4_len, partC4_len]

theorem budgetLoop_tier1_full {R used : ℤ} {meta : FileNodeInfo} {part : String}
    {rest : List (FileNodeInfo × String)} {i : ℕ} (hi : i < 5)
    (hpos : 0 < (part.length : ℤ)) (hle60 : (part.length : ℤ) ≤ 60000)
    (hlerem : (part.length : ℤ) ≤ R - used) :
    budgetLoop R ((meta, part) :: rest) i used
      = part :: budgetLoop R rest (i + 1) (used + part.length) := by
  rw [budgetLoop]
  rw [if_pos hi]
  dsimp only
  have hb : min (min ((part.length : ℤ)) 60000) (R - used) = (part.length : ℤ) := by omega
  rw [hb]
  rw [if_neg (by omega)]
  rw [Int.toNat_ofNat, pyTakeStr_all (le_refl _)]
  rw [if_neg (by omega)]

theorem budgetLoop_tier1_trunc {R used : ℤ} {meta : FileNodeInfo} {part : String}
    {rest : List (FileNodeInfo × String)} {i : ℕ} (hi : i < 5)
    (hgt : 60000 < (part.length : ℤ)) (hrem : 60000 ≤ R - used) :
    budgetLoop R ((meta, part) :: rest) i used
      = (pyTakeStr 60000 part ++ truncMarker)
        :: budgetLoop R rest (i + 1) (used + ((pyTakeStr 60000 part ++ truncMarker).length)) := by
  rw [budgetLoop]
  rw [if_pos hi]
  dsimp only
  have hb : min (min ((part.length : ℤ)) 60000) (R - used) = 60000 := by omega
  rw [hb]
  rw [if_neg (by omega)]
  rw [show ((60000 : ℤ)).toNat = 60000 from rfl]
  rw [if_pos (by omega)]

theorem emittedB4_len : (pyTakeStr 60000 partB4 ++ truncMarker).length = 60019 := by
  rw [strLength_append, pyTakeStr_length, partB4_len, truncMarker_len]
  omega

theorem emittedC4_len : (pyTakeStr 60000 partC4 ++ truncMarker).length = 60019 := by
  rw [strLength_append, pyTakeStr_length, partC4_len, truncMarker_len]
  omega

theorem budget_T4 {R : ℤ} (h1 : 299000 ≤ R) (h2 : R ≤ 300000) :
    budgetLoop R [(metaM4, partM4), (metaB4, partB4), (metaC4, partC4)] 0 0
      = [partM4, pyTakeStr 60000 partB4 ++ truncMarker,
         pyTakeStr 60000 partC4 ++ truncMarker] := by
  rw [budgetLoop_tier1_full (by norm_num) (by rw [partM4_len]; norm_num)
    (by rw [partM4_len]; norm_num) (by rw [partM4_len]; omega)]
  rw [budgetLoop_tier1_trunc (by norm_num) (by rw [partB4_len]; norm_num)
    (by rw [partM4_len]; omega)]
  rw [budgetLoop_tier1_trunc (by norm_num) (by rw [partC4_len]; norm_num)
    (by rw [partM4_len, emittedB4_len]; omega)]
  rw [budgetLoop]

theorem finalParts_T4 :
    finalPartsOf ("/r") T4 120 false 6
      = [partM4, pyTakeStr 60000 partB4 ++ truncMarker,
         pyTakeStr 60000 partC4 ++ truncMarker] := by
  obtain ⟨hR1, hR2⟩ := remaining_T4_bounds
  simp only [finalPartsOf]
  rw [sortedOf_T4]
  rw [if_neg (by rw [totalCode_T4]; push_cast; omega)]
  exact budget_T4 hR1 hR2

/-! ## Claim C4: budgeting monotonicity -/

theorem getD_three_zero {α : Type} (d x y z : α) : ([x, y, z]).getD 0 d = x := rfl

theorem getD_three_one {α : Type} (d x y z : α) : ([x, y, z]).getD 1 d = y := rfl

theorem getD_eq_getElem_of_lt {α : Type} (l : List α) (d : α) {k : ℕ} (hk : k < l.length) :
    l.getD k d = l[k] := by
  rw [List.getD_eq_getElem?_getD, List.getElem?_eq_getElem hk]
  rfl

/-- Counterexample to C4 as stated: in the concrete scan of `T4` the
budgeting path is taken, the file at rank 0 (`main.md`, importance 100)
emits 63 characters while the file at rank 1 (`b.md`, importance 0) emits
60019 characters — a strictly more important file emits strictly less. -/
theorem C4_counterexample :
    ¬ ((totalCodeOf ("/r") T4 120 false : ℤ) > (hdrOf ("/r") T4 120 false 6).2 →
       ∀ i j : ℕ, i < (sortedOf ("/r") T4 120 false).length →
         j < (sortedOf ("/r") T4 120 false).length →
         importanceKey ((sortedOf ("/r") T4 120 false).getD i dummyPair)
           > importanceKey ((sortedOf ("/r") T4 120 false).getD j dummyPair) →
         ((finalPartsOf ("/r") T4 120 false 6).getD i ("")).length
           ≥ ((finalPartsOf ("/r") T4 120 false 6).getD j ("")).length) := by
  intro hImp
  obtain ⟨hR1, hR2⟩ := remaining_T4_bounds
  have hpath : (totalCodeOf ("/r") T4 120 false : ℤ) > (hdrOf ("/r") T4 120 false 6).2 := by
    rw [totalCode_T4]
    push_cast
    omega
  have hlen3 : (sortedOf ("/r") T4 120 false).length = 3 := by
    rw [sortedOf_T4]
    rfl
  have hkey : importanceKey ((sortedOf ("/r") T4 120 false).getD 0 dummyPair)
      > importanceKey ((sortedOf ("/r") T4 120 false).getD 1 dummyPair) := by
    rw [sortedOf_T4, getD_three_zero, getD_three_one, key_M4, key_B4]
    norm_num
  have hle := hImp hpath 0 1 (by rw [hlen3]; norm_num) (by rw [hlen3]; norm_num) hkey
  rw [finalParts_T4, getD_three_zero, getD_three_one, partM4_len, emittedB4_len] at hle
  omega

/-- C4 amended: with strictly greater importance the file is ranked
strictly earlier, and its budget *tier cap* is at least the other file's
tier cap (the emitted lengths themselves are not monotone, as the
counterexample shows). -/
theorem C4_tier_cap_monotone :
    ∀ (rootPath : String) (t : PyDir) (mf : ℕ) (it : Bool) (dep : ℕ),
      (totalCodeOf rootPath t mf it : ℤ) > (hdrOf rootPath t mf it dep).2 →
      ∀ i j : ℕ, i < (sortedOf rootPath t mf it).length →
        j < (sortedOf rootPath t mf it).length →
        importanceKey ((sortedOf rootPath t mf it).getD i dummyPair)
          > importanceKey ((sortedOf rootPath t mf it).getD j dummyPair) →
        i < j ∧ tierCap j ≤ tierCap i := by
  intro rootPath t mf it dep _hpath i j hi hj hkey
  have hsorted : List.Pairwise impDesc (sortedOf rootPath t mf it) := by
    rw [sortedOf_eq_insertionSort]
    exact List.sorted_insertionSort impDesc _
  have hpw := List.pairwise_iff_getElem.mp hsorted
  rw [getD_eq_getElem_of_lt _ _ hi, getD_eq_getElem_of_lt _ _ hj] at hkey
  have hij : i < j := by
    rcases Nat.lt_trichotomy i j with h | h | h
    · exact h
    · exfalso
      subst h
      exact lt_irrefl _ hkey
    · exfalso
      have hle := hpw j i hj hi h
      exact absurd hkey (not_lt.mpr hle)
  refine ⟨hij, ?_⟩
  unfold tierCap
  split_ifs <;> omega

/-- Witness for the amended C4 at the concrete scan `T4`: the budgeting
path is taken and the rank-0 file strictly outranks the rank-1 file. -/
theorem C4_tier_cap_monotone_witness :
    (totalCodeOf ("/r") T4 120 false : ℤ) > (hdrOf ("/r") T4 120 false 6).2
    ∧ importanceKey ((sortedOf ("/r") T4 120 false).getD 0 dummyPair)
        > importanceKey ((sortedOf ("/r") T4 120 false).getD 1 dummyPair)
    ∧ (0 < 1 ∧ tierCap 1 ≤ tierCap 0) := by
  obtain ⟨hR1, hR2⟩ := remaining_T4_bounds
  have hpath : (totalCodeOf ("/r") T4 120 false : ℤ) > (hdrOf ("/r") T4 120 false 6).2 := by
    rw [totalCode_T4]
    push_cast
    omega
  have hlen3 : (sortedOf ("/r") T4 120 false).length = 3 := by
    rw [sortedOf_T4]
    rfl
  have hkey : importanceKey ((sortedOf ("/r") T4 120 false).getD 0 dummyPair)
      > importanceKey ((sortedOf ("/r") T4 120 false).getD 1 dummyPair) := by
    rw [sortedOf_T4, getD_three_zero, getD_three_one, key_M4, key_B4]
    norm_num
  exact ⟨hpath, hkey, C4_tier_cap_monotone ("/r") T4 120 false 6 hpath 0 1
    (by rw [hlen3]; norm_num) (by rw [hlen3]; norm_num) hkey⟩

end MambaGraph
